import Mathlib

/-!
Verification development for the chat-app backend hub
(`src/backend/main.go`): connection registry (Hub), room-scoped
broadcast with backpressure eviction, the inbound pump's
identity-stamping step, and the connection-lifecycle orchestration.
-/

namespace ChatApp

/-- Embeds the Go struct `Message` (main.go lines 14-20).  `type` carries
"join" / "leave" / "message"; the wall-clock `time.Time` timestamp is
modelled as a `Nat` instant. -/
structure Message where
  type : String
  username : String
  content : String
  room : String
  timestamp : Nat
deriving DecidableEq, Repr

/-- Embeds the identity part of the Go struct `Client` (main.go lines
23-28): the pointer identity of the `*Client` is modelled as a numeric
`id`, together with the bound `username` and `room`. -/
structure Conn where
  id : Nat
  username : String
  room : String
deriving DecidableEq, Repr

/-- One connection's observable hub-side state: the `Conn` identity, the
contents of its buffered `send` channel (`queue`), whether that channel
has been closed (`closed`), and whether the connection is currently in
the hub's membership map `h.clients` (`registered`). -/
structure ConnState where
  conn : Conn
  queue : List Message
  closed : Bool
  registered : Bool
deriving DecidableEq, Repr

/-- The hub's state: every connection ever seen, each with its queue,
closed flag and membership flag.  Entries are keyed positionally; the Go
map `h.clients` is the subset with `registered = true`. -/
abbrev HubState := List ConnState

/-- Capacity of a client's buffered `send` channel:
`make(chan Message, 256)` (main.go line 196). -/
def sendCap : Nat := 256

/-- Per-connection body of the broadcast loop (main.go lines 70-81): a
registered client in the message's room gets the message enqueued if its
channel has room (`client.send <- message`); otherwise the `default`
branch closes its channel and deletes it from the map.  Clients not in
the map or in another room are untouched. -/
def sendOrEvict (msg : Message) (e : ConnState) : ConnState :=
  if e.registered = true ∧ e.conn.room = msg.room then
    if e.queue.length < sendCap then
      { e with queue := e.queue ++ [msg] }
    else
      { e with closed := true, registered := false }
  else
    e

/-- The `case message := <-h.broadcast` arm of `Hub.Run` (main.go lines
68-82): the per-client action is applied to every connection.  Go map
iteration order is immaterial because the action is pointwise. -/
def broadcastH (msg : Message) (s : HubState) : HubState :=
  s.map (sendOrEvict msg)

/-- Per-connection body of the unregister arm (main.go lines 59-66): if
the client is present in the map it is deleted and its channel closed;
otherwise nothing happens. -/
def unregisterStep (cid : Nat) (e : ConnState) : ConnState :=
  if e.conn.id = cid ∧ e.registered = true then
    { e with registered := false, closed := true }
  else
    e

/-- The `case client := <-h.unregister` arm of `Hub.Run` (main.go lines
59-66). -/
def unregisterH (cid : Nat) (s : HubState) : HubState :=
  s.map (unregisterStep cid)

/-- The `case client := <-h.register` arm of `Hub.Run` (main.go lines
53-57), as invoked from its only call site `handleWebSocket` (line 200):
the freshly created client arrives with an empty buffered channel and is
added to the membership map. -/
def registerH (c : Conn) (s : HubState) : HubState :=
  s ++ [{ conn := c, queue := [], closed := false, registered := true }]

/-- The metadata overwrite of `Client.readPump` (main.go lines 128-130):
`msg.Username = c.username; msg.Room = c.room; msg.Timestamp = time.Now()`. -/
def stampMessage (c : Conn) (now : Nat) (m : Message) : Message :=
  { m with username := c.username, room := c.room, timestamp := now }

/-- Outcome of one `c.conn.ReadMessage()` + `json.Unmarshal` round in the
read loop: a transport-level read error, or a frame whose JSON decode
either failed (`none`) or produced a `Message` (`some m`). -/
inductive ReadEvent where
  | readError
  | frame (decoded : Option Message)
deriving DecidableEq, Repr

/-- One iteration of the `readPump` loop (main.go lines 112-134) plus the
deferred teardown on exit (lines 100-103).  Returns the hub state after
the iteration and `true` iff the loop continues: a read error breaks the
loop and the deferred `hub.unregister <- c` fires; a decode error hits
`continue` with no other effect; a decoded message is stamped with the
connection's identity and submitted to `hub.broadcast`. -/
def readPumpIter (c : Conn) (now : Nat) (ev : ReadEvent) (s : HubState) :
    HubState × Bool :=
  match ev with
  | .readError => (unregisterH c.id s, false)
  | .frame none => (s, true)
  | .frame (some m) => (broadcastH (stampMessage c now m) s, true)

/-- Default resolution for the `username` query parameter (main.go lines
174-179); Go's `Query().Get` returns `""` for a missing parameter, so
missing and empty coincide. -/
def resolveUsername (q : String) : String :=
  if q = "" then "Anonymous" else q

/-- Default resolution for the `room` query parameter (main.go lines
175-182). -/
def resolveRoom (q : String) : String :=
  if q = "" then "general" else q

/-- The join notification built in `handleWebSocket` (main.go lines
203-209). -/
def joinMessage (username room : String) (now : Nat) : Message :=
  { type := "join"
    username := username
    content := username ++ " joined the room"
    room := room
    timestamp := now }

/-- The hub-visible effect of `handleWebSocket` (main.go lines 172-215):
resolve identity defaults, create a client with an empty queue, register
it, then broadcast the join notification.  (The pumps started afterwards
are modelled separately by `readPumpIter`.) -/
def handleWebSocketH (id : Nat) (qUsername qRoom : String) (now : Nat)
    (s : HubState) : HubState :=
  let username := resolveUsername qUsername
  let room := resolveRoom qRoom
  let c : Conn := { id := id, username := username, room := room }
  broadcastH (joinMessage username room now) (registerH c s)

/-- The three requests served by the `Hub.Run` select loop (main.go lines
50-85). -/
inductive HubOp where
  | register (c : Conn)
  | unregister (cid : Nat)
  | broadcast (m : Message)

/-- Dispatch of one hub request, exactly one arm of the select loop. -/
def applyOp : HubOp → HubState → HubState
  | .register c, s => registerH c s
  | .unregister cid, s => unregisterH cid s
  | .broadcast m, s => broadcastH m s

/-- Registry invariant: a connection still in the membership map has an
open channel.  It holds initially (the map starts empty) and is
preserved by every hub operation. -/
def Inv (s : HubState) : Prop :=
  ∀ e ∈ s, e.registered = true → e.closed = false

instance (s : HubState) : Decidable (Inv s) :=
  inferInstanceAs (Decidable (∀ e ∈ s, e.registered = true → e.closed = false))

/-! ### Helper lemmas -/

theorem broadcastH_length (msg : Message) (s : HubState) :
    (broadcastH msg s).length = s.length :=
  List.length_map _ _

theorem unregisterH_length (cid : Nat) (s : HubState) :
    (unregisterH cid s).length = s.length :=
  List.length_map _ _

theorem broadcastH_get (msg : Message) (s : HubState) (i : Nat)
    (h : i < s.length) (h' : i < (broadcastH msg s).length) :
    (broadcastH msg s).get ⟨i, h'⟩ = sendOrEvict msg (s.get ⟨i, h⟩) := by
  simp [broadcastH]

theorem unregisterH_get (cid : Nat) (s : HubState) (i : Nat)
    (h : i < s.length) (h' : i < (unregisterH cid s).length) :
    (unregisterH cid s).get ⟨i, h'⟩ = unregisterStep cid (s.get ⟨i, h⟩) := by
  simp [unregisterH]

/-! ### Claim theorems -/

/-- C4: for every registry state and every connection, invoking
unregister twice in succession produces the same observable state as
invoking it once, and unregister of a connection absent from the
membership map is a no-op that closes nothing. -/
theorem unregister_idempotent (cid : Nat) (s : HubState) :
    unregisterH cid (unregisterH cid s) = unregisterH cid s ∧
    ((∀ e ∈ s, e.conn.id = cid → e.registered = false) →
      unregisterH cid s = s) := by
  constructor
  · unfold unregisterH
    rw [List.map_map]
    apply List.map_congr_left
    intro e _
    simp only [Function.comp_apply]
    unfold unregisterStep
    by_cases hc : e.conn.id = cid ∧ e.registered = true
    · rw [if_pos hc, if_neg]
      simp
    · rw [if_neg hc, if_neg hc]
  · intro habs
    unfold unregisterH
    have hid : ∀ e ∈ s, unregisterStep cid e = id e := by
      intro e he
      unfold unregisterStep
      rw [if_neg]
      · rfl
      · rintro ⟨h1, h2⟩
        rw [habs e he h1] at h2
        exact Bool.false_ne_true h2
    rw [List.map_congr_left hid, List.map_id]

/-- C4 witness at a concrete registry state. -/
theorem unregister_idempotent_witness :
    unregisterH 0 (unregisterH 0 [⟨⟨0, "a", "general"⟩, [], false, true⟩]) =
      unregisterH 0 [⟨⟨0, "a", "general"⟩, [], false, true⟩] ∧
    unregisterH 7 [⟨⟨0, "a", "general"⟩, [], false, true⟩] =
      [⟨⟨0, "a", "general"⟩, [], false, true⟩] := by
  refine ⟨(unregister_idempotent 0 _).1, (unregister_idempotent 7 _).2 ?_⟩
  decide

/-- C5: a frame that fails to decode is discarded and the read loop
continues: the hub state (the connection's own membership and queue, and
every other connection's state) is unchanged, nothing is broadcast, and
the connection is not terminated. -/
theorem decode_error_nonfatal (c : Conn) (now : Nat) (s : HubState) :
    readPumpIter c now (ReadEvent.frame none) s = (s, true) :=
  rfl

/-- C10: identity stamping rewrites only username, room and timestamp;
the client-supplied type and content fields (including a forged "join"
or "leave" type) reach the broadcast message verbatim. -/
theorem stamp_preserves_type_content (c : Conn) (now : Nat) (m : Message)
    (s : HubState) :
    (stampMessage c now m).type = m.type ∧
    (stampMessage c now m).content = m.content ∧
    readPumpIter c now (ReadEvent.frame (some m)) s =
      (broadcastH ⟨m.type, c.username, m.content, c.room, now⟩ s, true) := by
  exact ⟨rfl, rfl, rfl⟩

/-- C3: a decoded frame from a connection bound to (U, R) is submitted
to broadcast with username U, room R and the server-assigned timestamp,
and two payloads differing only in their username / room / timestamp
fields produce the same broadcast effect. -/
theorem stamp_identity_integrity (c : Conn) (now : Nat) (m1 m2 : Message)
    (htype : m1.type = m2.type) (hcontent : m1.content = m2.content) :
    (stampMessage c now m1).username = c.username ∧
    (stampMessage c now m1).room = c.room ∧
    (stampMessage c now m1).timestamp = now ∧
    stampMessage c now m1 = stampMessage c now m2 ∧
    ∀ s : HubState,
      readPumpIter c now (ReadEvent.frame (some m1)) s =
        readPumpIter c now (ReadEvent.frame (some m2)) s := by
  have hm : stampMessage c now m1 = stampMessage c now m2 := by
    cases m1
    cases m2
    simp_all [stampMessage]
  refine ⟨rfl, rfl, rfl, hm, ?_⟩
  intro s
  simp [readPumpIter, hm]

/-- C3 witness: two concrete payloads with forged identity fields. -/
theorem stamp_identity_integrity_witness :
    stampMessage ⟨5, "alice", "general"⟩ 42 ⟨"message", "mallory", "hi", "random", 0⟩ =
      ⟨"message", "alice", "hi", "general", 42⟩ ∧
    stampMessage ⟨5, "alice", "general"⟩ 42 ⟨"message", "eve", "hi", "other", 99⟩ =
      ⟨"message", "alice", "hi", "general", 42⟩ := by
  have h := stamp_identity_integrity ⟨5, "alice", "general"⟩ 42
    ⟨"message", "mallory", "hi", "random", 0⟩
    ⟨"message", "eve", "hi", "other", 99⟩ rfl rfl
  exact ⟨rfl, h.2.2.2.1.symm.trans rfl⟩

/-- C8: a missing or empty username query parameter resolves to
"Anonymous" and a missing or empty room parameter to "general"; a
non-empty parameter is bound verbatim. -/
theorem identity_defaults (u r : String) :
    resolveUsername "" = "Anonymous" ∧
    resolveRoom "" = "general" ∧
    (u ≠ "" → resolveUsername u = u) ∧
    (r ≠ "" → resolveRoom r = r) := by
  refine ⟨rfl, rfl, ?_, ?_⟩
  · intro hu
    unfold resolveUsername
    rw [if_neg hu]
  · intro hr
    unfold resolveRoom
    rw [if_neg hr]

/-- C8 witness at concrete query strings. -/
theorem identity_defaults_witness :
    resolveUsername "" = "Anonymous" ∧
    resolveRoom "" = "general" ∧
    resolveUsername "alice" = "alice" ∧
    resolveRoom "dev" = "dev" := by
  obtain ⟨h1, h2, h3, h4⟩ := identity_defaults "alice" "dev"
  exact ⟨h1, h2, h3 (by decide), h4 (by decide)⟩

/-- C1: a broadcast of a message with room R enqueues the message onto
the outbound queue of every registered connection bound to R that is not
evicted in that pass (its queue has room), and touches no connection
bound to a different room. -/
theorem broadcast_room_scoped (msg : Message) (s : HubState) (i : Nat)
    (h : i < s.length) :
    ∃ h' : i < (broadcastH msg s).length,
      ((s.get ⟨i, h⟩).registered = true →
        (s.get ⟨i, h⟩).conn.room = msg.room →
        (s.get ⟨i, h⟩).queue.length < sendCap →
        ((broadcastH msg s).get ⟨i, h'⟩).queue = (s.get ⟨i, h⟩).queue ++ [msg] ∧
        ((broadcastH msg s).get ⟨i, h'⟩).registered = true) ∧
      ((s.get ⟨i, h⟩).conn.room ≠ msg.room →
        (broadcastH msg s).get ⟨i, h'⟩ = s.get ⟨i, h⟩) := by
  have h' : i < (broadcastH msg s).length := by
    rw [broadcastH_length]
    exact h
  refine ⟨h', ?_, ?_⟩
  · intro hreg hroom hlt
    rw [broadcastH_get msg s i h h']
    unfold sendOrEvict
    rw [if_pos ⟨hreg, hroom⟩, if_pos hlt]
    exact ⟨rfl, hreg⟩
  · intro hroom
    rw [broadcastH_get msg s i h h']
    unfold sendOrEvict
    rw [if_neg]
    rintro ⟨_, hr⟩
    exact hroom hr

/-- C1 witness: a two-connection state, one in the message's room and
one in another room. -/
theorem broadcast_room_scoped_witness :
    (∃ h' : 0 < (broadcastH ⟨"message", "alice", "hi", "general", 10⟩
        [⟨⟨0, "bob", "general"⟩, [], false, true⟩,
         ⟨⟨1, "carol", "random"⟩, [], false, true⟩]).length,
      ((broadcastH ⟨"message", "alice", "hi", "general", 10⟩
        [⟨⟨0, "bob", "general"⟩, [], false, true⟩,
         ⟨⟨1, "carol", "random"⟩, [], false, true⟩]).get ⟨0, h'⟩).queue =
        [] ++ [⟨"message", "alice", "hi", "general", 10⟩]) ∧
    (∃ h' : 1 < (broadcastH ⟨"message", "alice", "hi", "general", 10⟩
        [⟨⟨0, "bob", "general"⟩, [], false, true⟩,
         ⟨⟨1, "carol", "random"⟩, [], false, true⟩]).length,
      (broadcastH ⟨"message", "alice", "hi", "general", 10⟩
        [⟨⟨0, "bob", "general"⟩, [], false, true⟩,
         ⟨⟨1, "carol", "random"⟩, [], false, true⟩]).get ⟨1, h'⟩ =
        ⟨⟨1, "carol", "random"⟩, [], false, true⟩) := by
  constructor
  · obtain ⟨h', h1, _⟩ := broadcast_room_scoped
      ⟨"message", "alice", "hi", "general", 10⟩
      [⟨⟨0, "bob", "general"⟩, [], false, true⟩,
       ⟨⟨1, "carol", "random"⟩, [], false, true⟩] 0 (by decide)
    exact ⟨h', (h1 rfl rfl (by decide)).1⟩
  · obtain ⟨h', _, h2⟩ := broadcast_room_scoped
      ⟨"message", "alice", "hi", "general", 10⟩
      [⟨⟨0, "bob", "general"⟩, [], false, true⟩,
       ⟨⟨1, "carol", "random"⟩, [], false, true⟩] 1 (by decide)
    exact ⟨h', h2 (by decide)⟩

/-- C2: a registered connection in the message's room whose queue is
full when targeted by broadcast has its queue closed (it was open
before, so this is the single close) and is removed from the membership
set in that same pass, with its queue contents untouched; any later
broadcast leaves the evicted connection completely unchanged, in
particular one to the same room no longer targets it. -/
theorem broadcast_evicts_full_queue (msg : Message) (s : HubState) (i : Nat)
    (h : i < s.length)
    (hreg : (s.get ⟨i, h⟩).registered = true)
    (hroom : (s.get ⟨i, h⟩).conn.room = msg.room)
    (hfull : ¬ (s.get ⟨i, h⟩).queue.length < sendCap)
    (hopen : (s.get ⟨i, h⟩).closed = false) :
    ∃ h' : i < (broadcastH msg s).length,
      ((broadcastH msg s).get ⟨i, h'⟩).registered = false ∧
      ((s.get ⟨i, h⟩).closed = false ∧
        ((broadcastH msg s).get ⟨i, h'⟩).closed = true) ∧
      ((broadcastH msg s).get ⟨i, h'⟩).queue = (s.get ⟨i, h⟩).queue ∧
      ∀ msg2 : Message,
        ∃ h'' : i < (broadcastH msg2 (broadcastH msg s)).length,
          (broadcastH msg2 (broadcastH msg s)).get ⟨i, h''⟩ =
            (broadcastH msg s).get ⟨i, h'⟩ := by
  have h' : i < (broadcastH msg s).length := by
    rw [broadcastH_length]
    exact h
  have hev : (broadcastH msg s).get ⟨i, h'⟩ =
      { s.get ⟨i, h⟩ with closed := true, registered := false } := by
    rw [broadcastH_get msg s i h h']
    unfold sendOrEvict
    rw [if_pos ⟨hreg, hroom⟩, if_neg hfull]
  refine ⟨h', ?_, ⟨hopen, ?_⟩, ?_, ?_⟩
  · rw [hev]
  · rw [hev]
  · rw [hev]
  · intro msg2
    have h'' : i < (broadcastH msg2 (broadcastH msg s)).length := by
      rw [broadcastH_length]
      exact h'
    refine ⟨h'', ?_⟩
    rw [broadcastH_get msg2 (broadcastH msg s) i h' h'']
    unfold sendOrEvict
    rw [if_neg]
    rintro ⟨hr, _⟩
    rw [hev] at hr
    exact Bool.false_ne_true hr

/-- C2 witness: a connection with a full 256-slot queue is evicted and a
same-room follow-up broadcast leaves it unchanged. -/
theorem broadcast_evicts_full_queue_witness :
    ((0 : Nat) < ([⟨⟨0, "bob", "general"⟩,
        List.replicate 256 ⟨"message", "x", "y", "general", 0⟩, false, true⟩] :
          HubState).length) ∧
    ∃ h' : 0 < (broadcastH ⟨"message", "alice", "hi", "general", 10⟩
        [⟨⟨0, "bob", "general"⟩,
          List.replicate 256 ⟨"message", "x", "y", "general", 0⟩, false, true⟩]).length,
      ((broadcastH ⟨"message", "alice", "hi", "general", 10⟩
        [⟨⟨0, "bob", "general"⟩,
          List.replicate 256 ⟨"message", "x", "y", "general", 0⟩, false, true⟩]).get
            ⟨0, h'⟩).registered = false ∧
      ((broadcastH ⟨"message", "alice", "hi", "general", 10⟩
        [⟨⟨0, "bob", "general"⟩,
          List.replicate 256 ⟨"message", "x", "y", "general", 0⟩, false, true⟩]).get
            ⟨0, h'⟩).closed = true := by
  refine ⟨by decide, ?_⟩
  obtain ⟨h', h1, h2, _, _⟩ := broadcast_evicts_full_queue
    ⟨"message", "alice", "hi", "general", 10⟩
    [⟨⟨0, "bob", "general"⟩,
      List.replicate 256 ⟨"message", "x", "y", "general", 0⟩, false, true⟩]
    0 (by decide) rfl rfl
    (by rw [show ([⟨⟨0, "bob", "general"⟩,
        List.replicate 256 ⟨"message", "x", "y", "general", 0⟩, false, true⟩] :
          HubState).get ⟨0, by decide⟩ =
        ⟨⟨0, "bob", "general"⟩,
          List.replicate 256 ⟨"message", "x", "y", "general", 0⟩, false, true⟩ from rfl]
        ; rw [List.length_replicate]
        ; unfold sendCap
        ; omega)
    rfl
  exact ⟨h', h1, h2.2⟩

/-! ### Pointwise facts about the per-connection step functions,
shared by the invariant proof. -/

theorem sendOrEvict_closed_flip (m : Message) (e : ConnState)
    (hopen : e.closed = false) (hflip : (sendOrEvict m e).closed = true) :
    e.registered = true ∧ (sendOrEvict m e).registered = false := by
  unfold sendOrEvict at hflip ⊢
  by_cases h1 : e.registered = true ∧ e.conn.room = m.room
  · rw [if_pos h1] at hflip ⊢
    by_cases h2 : e.queue.length < sendCap
    · rw [if_pos h2] at hflip
      have hc : e.closed = true := hflip
      rw [hopen] at hc
      exact absurd hc Bool.false_ne_true
    · rw [if_neg h2]
      exact ⟨h1.1, rfl⟩
  · rw [if_neg h1] at hflip
    have hc : e.closed = true := hflip
    rw [hopen] at hc
    exact absurd hc Bool.false_ne_true

theorem sendOrEvict_inert (m : Message) (e : ConnState)
    (hreg : e.registered = false) : sendOrEvict m e = e := by
  unfold sendOrEvict
  rw [if_neg]
  rintro ⟨h1, _⟩
  rw [hreg] at h1
  exact Bool.false_ne_true h1

theorem sendOrEvict_inv (m : Message) (e : ConnState)
    (he : e.registered = true → e.closed = false) :
    (sendOrEvict m e).registered = true → (sendOrEvict m e).closed = false := by
  unfold sendOrEvict
  by_cases h1 : e.registered = true ∧ e.conn.room = m.room
  · rw [if_pos h1]
    by_cases h2 : e.queue.length < sendCap
    · rw [if_pos h2]
      intro _
      exact he h1.1
    · rw [if_neg h2]
      intro hr
      exact absurd hr Bool.false_ne_true
  · rw [if_neg h1]
    exact he

theorem unregisterStep_closed_flip (cid : Nat) (e : ConnState)
    (hopen : e.closed = false) (hflip : (unregisterStep cid e).closed = true) :
    e.registered = true ∧ (unregisterStep cid e).registered = false := by
  unfold unregisterStep at hflip ⊢
  by_cases h1 : e.conn.id = cid ∧ e.registered = true
  · rw [if_pos h1]
    exact ⟨h1.2, rfl⟩
  · rw [if_neg h1] at hflip
    have hc : e.closed = true := hflip
    rw [hopen] at hc
    exact absurd hc Bool.false_ne_true

theorem unregisterStep_inert (cid : Nat) (e : ConnState)
    (hreg : e.registered = false) : unregisterStep cid e = e := by
  unfold unregisterStep
  rw [if_neg]
  rintro ⟨_, h2⟩
  rw [hreg] at h2
  exact Bool.false_ne_true h2

theorem unregisterStep_inv (cid : Nat) (e : ConnState)
    (he : e.registered = true → e.closed = false) :
    (unregisterStep cid e).registered = true →
      (unregisterStep cid e).closed = false := by
  unfold unregisterStep
  by_cases h1 : e.conn.id = cid ∧ e.registered = true
  · rw [if_pos h1]
    intro hr
    exact absurd hr Bool.false_ne_true
  · rw [if_neg h1]
    exact he

theorem registered_false_of_closed (s : HubState) (hinv : Inv s)
    (e : ConnState) (he : e ∈ s) (hcl : e.closed = true) :
    e.registered = false := by
  cases hb : e.registered
  · rfl
  · have := hinv e he hb
    rw [hcl] at this
    exact absurd this.symm Bool.false_ne_true

/-- C9: over any state satisfying the registry invariant (registered
connections have open queues), every hub operation preserves the
invariant, closes a connection's queue only in the very step that also
removes it from the membership set, and leaves a connection whose queue
is already closed completely untouched — so each queue is closed at most
once along any interleaving of unregister and backpressure eviction. -/
theorem hub_close_coupled_with_removal (op : HubOp) (s : HubState)
    (hinv : Inv s) :
    Inv (applyOp op s) ∧
    ∀ i : Nat, ∀ h : i < s.length,
      ∃ h' : i < (applyOp op s).length,
        (((s.get ⟨i, h⟩).closed = false ∧
            ((applyOp op s).get ⟨i, h'⟩).closed = true) →
          ((s.get ⟨i, h⟩).registered = true ∧
            ((applyOp op s).get ⟨i, h'⟩).registered = false)) ∧
        ((s.get ⟨i, h⟩).closed = true →
          (applyOp op s).get ⟨i, h'⟩ = s.get ⟨i, h⟩) := by
  cases op with
  | register c =>
    constructor
    · intro e he hr
      rcases List.mem_append.1 he with hs | hnew
      · exact hinv e hs hr
      · rw [List.mem_singleton.1 hnew]
    · intro i h
      have h' : i < (applyOp (HubOp.register c) s).length := by
        show i < (s ++ _).length
        rw [List.length_append]
        omega
      have hget : (applyOp (HubOp.register c) s).get ⟨i, h'⟩ = s.get ⟨i, h⟩ := by
        show (s ++ _).get ⟨i, h'⟩ = s.get ⟨i, h⟩
        simp only [List.get_eq_getElem]
        exact List.getElem_append_left h
      refine ⟨h', ?_, fun _ => hget⟩
      rintro ⟨hopen, hclosed⟩
      rw [hget] at hclosed
      rw [hopen] at hclosed
      exact absurd hclosed Bool.false_ne_true
  | unregister cid =>
    constructor
    · intro e' he'
      obtain ⟨e, he, rfl⟩ := List.mem_map.1 he'
      exact unregisterStep_inv cid e (hinv e he)
    · intro i h
      have h' : i < (applyOp (HubOp.unregister cid) s).length := by
        show i < (unregisterH cid s).length
        rw [unregisterH_length]
        exact h
      have hget : (applyOp (HubOp.unregister cid) s).get ⟨i, h'⟩ =
          unregisterStep cid (s.get ⟨i, h⟩) := unregisterH_get cid s i h h'
      refine ⟨h', ?_, ?_⟩
      · rintro ⟨hopen, hclosed⟩
        rw [hget] at hclosed ⊢
        exact unregisterStep_closed_flip cid _ hopen hclosed
      · intro hcl
        rw [hget]
        exact unregisterStep_inert cid _
          (registered_false_of_closed s hinv _ (List.get_mem s i h) hcl)
  | broadcast m =>
    constructor
    · intro e' he'
      obtain ⟨e, he, rfl⟩ := List.mem_map.1 he'
      exact sendOrEvict_inv m e (hinv e he)
    · intro i h
      have h' : i < (applyOp (HubOp.broadcast m) s).length := by
        show i < (broadcastH m s).length
        rw [broadcastH_length]
        exact h
      have hget : (applyOp (HubOp.broadcast m) s).get ⟨i, h'⟩ =
          sendOrEvict m (s.get ⟨i, h⟩) := broadcastH_get m s i h h'
      refine ⟨h', ?_, ?_⟩
      · rintro ⟨hopen, hclosed⟩
        rw [hget] at hclosed ⊢
        exact sendOrEvict_closed_flip m _ hopen hclosed
      · intro hcl
        rw [hget]
        exact sendOrEvict_inert m _
          (registered_false_of_closed s hinv _ (List.get_mem s i h) hcl)

/-- C9 witness: a broadcast over a concrete two-connection state
satisfying the invariant. -/
theorem hub_close_coupled_with_removal_witness :
    Inv (applyOp (HubOp.broadcast ⟨"message", "a", "x", "general", 1⟩)
      [⟨⟨0, "bob", "general"⟩, [], false, true⟩,
       ⟨⟨1, "carol", "random"⟩, [], true, false⟩]) := by
  have h := hub_close_coupled_with_removal
    (HubOp.broadcast ⟨"message", "a", "x", "general", 1⟩)
    [⟨⟨0, "bob", "general"⟩, [], false, true⟩,
     ⟨⟨1, "carol", "random"⟩, [], true, false⟩]
    (by decide)
  exact h.1

/-- C7 counterexample: the claim "every current member of R has the
join message enqueued" fails when a current member's queue is full at
the moment of the join broadcast — that member is evicted and never
receives the join message.  Concretely, Bob is in "general" with a full
256-slot queue; Alice joins "general"; Bob's queue does not contain the
join message and Bob is no longer registered. -/
theorem handleWebSocket_join_counterexample :
    ∃ h : 0 < (handleWebSocketH 1 "Alice" "general" 5
        [⟨⟨0, "Bob", "general"⟩,
          List.replicate 256 ⟨"message", "x", "y", "general", 0⟩,
          false, true⟩]).length,
      joinMessage "Alice" "general" 5 ∉
        ((handleWebSocketH 1 "Alice" "general" 5
          [⟨⟨0, "Bob", "general"⟩,
            List.replicate 256 ⟨"message", "x", "y", "general", 0⟩,
            false, true⟩]).get ⟨0, h⟩).queue ∧
      ((handleWebSocketH 1 "Alice" "general" 5
        [⟨⟨0, "Bob", "general"⟩,
          List.replicate 256 ⟨"message", "x", "y", "general", 0⟩,
          false, true⟩]).get ⟨0, h⟩).registered = false := by
  have hq : ((handleWebSocketH 1 "Alice" "general" 5
      [⟨⟨0, "Bob", "general"⟩,
        List.replicate 256 ⟨"message", "x", "y", "general", 0⟩,
        false, true⟩]).get ⟨0, by decide⟩) =
      ⟨⟨0, "Bob", "general"⟩,
        List.replicate 256 ⟨"message", "x", "y", "general", 0⟩,
        true, false⟩ := by
    show sendOrEvict _ _ = _
    unfold sendOrEvict
    rw [if_pos ⟨rfl, rfl⟩, if_neg]
    rw [List.length_replicate]
    unfold sendCap
    omega
  refine ⟨by decide, ?_, ?_⟩
  · rw [hq]
    intro hmem
    have := (List.mem_replicate.1 hmem).2
    simp [joinMessage] at this
  · rw [hq]

/-- C7 (amended): the orchestrator registers the connection and then
broadcasts a Join message with type "join", room R, username U and
content "U joined the room"; the joining connection itself (whose fresh
queue is empty) always has it enqueued, and so does every prior member
of R that is still present, i.e. whose queue is not full; a full-queue
member is evicted instead. -/
theorem handleWebSocket_join_broadcast (id : Nat) (qu qr : String)
    (now : Nat) (s : HubState) :
    (∃ h' : s.length < (handleWebSocketH id qu qr now s).length,
      (handleWebSocketH id qu qr now s).get ⟨s.length, h'⟩ =
        ⟨⟨id, resolveUsername qu, resolveRoom qr⟩,
          [joinMessage (resolveUsername qu) (resolveRoom qr) now],
          false, true⟩) ∧
    (∀ i : Nat, ∀ h : i < s.length,
      (s.get ⟨i, h⟩).registered = true →
      (s.get ⟨i, h⟩).conn.room = resolveRoom qr →
      (s.get ⟨i, h⟩).queue.length < sendCap →
      ∃ h' : i < (handleWebSocketH id qu qr now s).length,
        ((handleWebSocketH id qu qr now s).get ⟨i, h'⟩).queue =
          (s.get ⟨i, h⟩).queue ++
            [joinMessage (resolveUsername qu) (resolveRoom qr) now] ∧
        ((handleWebSocketH id qu qr now s).get ⟨i, h'⟩).registered = true) ∧
    (joinMessage (resolveUsername qu) (resolveRoom qr) now).type = "join" ∧
    (joinMessage (resolveUsername qu) (resolveRoom qr) now).username =
      resolveUsername qu ∧
    (joinMessage (resolveUsername qu) (resolveRoom qr) now).content =
      resolveUsername qu ++ " joined the room" ∧
    (joinMessage (resolveUsername qu) (resolveRoom qr) now).room =
      resolveRoom qr := by
  have hlen : (handleWebSocketH id qu qr now s).length = s.length + 1 := by
    show (broadcastH _ (s ++ _)).length = _
    rw [broadcastH_length, List.length_append]
    rfl
  refine ⟨?_, ?_, rfl, rfl, rfl, rfl⟩
  · have h' : s.length < (handleWebSocketH id qu qr now s).length := by
      rw [hlen]
      omega
    have hb : s.length < (registerH
        ⟨id, resolveUsername qu, resolveRoom qr⟩ s).length := by
      show s.length < (s ++ _).length
      rw [List.length_append]
      simp
    refine ⟨h', ?_⟩
    show (broadcastH _ (registerH ⟨id, resolveUsername qu, resolveRoom qr⟩ s)).get
        ⟨s.length, h'⟩ = _
    rw [broadcastH_get _ _ s.length hb h']
    have hfresh : (registerH ⟨id, resolveUsername qu, resolveRoom qr⟩ s).get
        ⟨s.length, hb⟩ =
        ⟨⟨id, resolveUsername qu, resolveRoom qr⟩, [], false, true⟩ := by
      show (s ++ _).get ⟨s.length, hb⟩ = _
      simp only [List.get_eq_getElem]
      exact List.getElem_concat_length s _ s.length rfl (by simp)
    rw [hfresh]
    unfold sendOrEvict
    rw [if_pos ⟨rfl, rfl⟩, if_pos (by unfold sendCap; simp)]
    rfl
  · intro i h hreg hroom hlt
    have h' : i < (handleWebSocketH id qu qr now s).length := by
      rw [hlen]
      omega
    have hb : i < (registerH ⟨id, resolveUsername qu, resolveRoom qr⟩ s).length := by
      show i < (s ++ _).length
      rw [List.length_append]
      omega
    have hleft : (registerH ⟨id, resolveUsername qu, resolveRoom qr⟩ s).get
        ⟨i, hb⟩ = s.get ⟨i, h⟩ := by
      show (s ++ _).get ⟨i, hb⟩ = s.get ⟨i, h⟩
      simp only [List.get_eq_getElem]
      exact List.getElem_append_left h
    refine ⟨h', ?_⟩
    show (((broadcastH (joinMessage (resolveUsername qu) (resolveRoom qr) now)
          (registerH ⟨id, resolveUsername qu, resolveRoom qr⟩ s)).get
        ⟨i, h'⟩).queue = _) ∧
      ((broadcastH (joinMessage (resolveUsername qu) (resolveRoom qr) now)
          (registerH ⟨id, resolveUsername qu, resolveRoom qr⟩ s)).get
        ⟨i, h'⟩).registered = true
    rw [broadcastH_get _ _ i hb h', hleft]
    unfold sendOrEvict
    rw [if_pos ⟨hreg, hroom⟩, if_pos hlt]
    exact ⟨rfl, hreg⟩

/-- C7 witness: Alice joins "general" (via an empty room parameter)
while Bob is a member with a non-full queue; both end up with the join
message enqueued. -/
theorem handleWebSocket_join_broadcast_witness :
    (∃ h' : 1 < (handleWebSocketH 1 "Alice" ""
        7 [⟨⟨0, "Bob", "general"⟩, [], false, true⟩]).length,
      (handleWebSocketH 1 "Alice" "" 7
        [⟨⟨0, "Bob", "general"⟩, [], false, true⟩]).get ⟨1, h'⟩ =
        ⟨⟨1, "Alice", "general"⟩, [joinMessage "Alice" "general" 7],
          false, true⟩) ∧
    (∃ h' : 0 < (handleWebSocketH 1 "Alice" ""
        7 [⟨⟨0, "Bob", "general"⟩, [], false, true⟩]).length,
      ((handleWebSocketH 1 "Alice" "" 7
        [⟨⟨0, "Bob", "general"⟩, [], false, true⟩]).get ⟨0, h'⟩).queue =
        [] ++ [joinMessage "Alice" "general" 7]) := by
  obtain ⟨hjoin, hmembers, -, -, -, -⟩ := handleWebSocket_join_broadcast
    1 "Alice" "" 7 [⟨⟨0, "Bob", "general"⟩, [], false, true⟩]
  obtain ⟨h', hq, -⟩ := hmembers 0 (by decide) rfl rfl (by decide)
  exact ⟨hjoin, h', hq⟩

end ChatApp
